import Mathlib

/-!
Shallow embedding of getProxySOCKS5.py (ProxyTester) and its run pipeline.

Network and filesystem effects are modelled as explicit oracles passed in:
a source fetch either fails (`none`, covering timeouts, connection errors
and the exception raised by `raise_for_status`) or yields a status code and
a body; a proxied GET either fails or yields an `HttpResponse`.  Wall-clock
latency is part of the oracle.  Thread pools only affect the completion
order of independent per-item tasks; the model fixes submission order,
and the claims below depend only on order-independent facts (membership,
counts, the explicit sorts).  Python `set` iteration order is likewise
unspecified, so the deduplicated pool is modelled with `List.dedup` and all
statements about it are order-free.
-/

/-- Accumulator-based splitter mirroring Python `str.splitlines` for the
line separators that can occur here (`\n`, `\r\n`, `\r`). -/
def splitlinesGo : List Char → List Char → List String
  | [], [] => []
  | [], acc => [String.mk acc.reverse]
  | '\r' :: '\n' :: rest, acc => String.mk acc.reverse :: splitlinesGo rest []
  | '\n' :: rest, acc => String.mk acc.reverse :: splitlinesGo rest []
  | '\r' :: rest, acc => String.mk acc.reverse :: splitlinesGo rest []
  | c :: rest, acc => splitlinesGo rest (c :: acc)

/-- Python `response.text.splitlines()`. -/
def splitlines (s : String) : List String :=
  splitlinesGo s.data []

/-- The whitespace characters recognised by Python `str.strip` and
`str.split` on the inputs at hand. -/
def isSpaceChar (c : Char) : Bool :=
  decide (c = ' ') || decide (c = '\t') || decide (c = '\n') || decide (c = '\r') ||
    decide (c = '\x0b') || decide (c = '\x0c')

/-- Python `s.strip()`: drop leading and trailing whitespace. -/
def pyStrip (s : String) : String :=
  String.mk (((s.data.dropWhile isSpaceChar).reverse.dropWhile isSpaceChar).reverse)

/-- Python `c in s` for a single character. -/
def pyContainsChar (s : String) (c : Char) : Bool :=
  s.data.any (fun d => decide (d = c))

/-- Python `s.startswith(p)` for a one-character marker. -/
def pyStartsWithChar (s : String) (c : Char) : Bool :=
  match s.data with
  | d :: _ => decide (d = c)
  | [] => false

/-- Python membership test of the scheme separator `://` in a string. -/
def containsSchemeSep : List Char → Bool
  | ':' :: '/' :: '/' :: _ => true
  | _ :: rest => containsSchemeSep rest
  | [] => false

/-- First run of non-whitespace characters, i.e. Python `line.split()[0]`
for an already stripped, nonempty line. -/
def firstTokenOf (s : String) : String :=
  String.mk (s.data.takeWhile (fun c => !isSpaceChar c))

/-- Outcome of the direct GET on one source URL: status code and body.
`none` at the call site stands for any raised request exception. -/
structure SourceResponse where
  statusCode : Nat
  text : String
deriving DecidableEq

/-- One iteration of the parsing loop in `fetch_proxies_from_source`:
strip the line, drop blanks and `#` comments, take the part before the
first space when the line contains a space character, keep the candidate
only when it contains a colon. -/
def parseProxyLine (raw : String) : Option String :=
  let line := pyStrip raw
  if line = "" ∨ pyStartsWithChar line '#' then none
  else
    let proxy := if pyContainsChar line ' ' then firstTokenOf line else line
    if pyContainsChar proxy ':' then some proxy else none

/-- `ProxyTester.fetch_proxies_from_source`: every exception (network
failure or a 4xx/5xx status via `raise_for_status`) is caught and yields
`[]`; otherwise the body is parsed line by line. -/
def fetch_proxies_from_source : Option SourceResponse → List String
  | none => []
  | some r =>
    if 400 ≤ r.statusCode then []
    else (splitlines r.text).filterMap parseProxyLine

/-- `ProxyTester.fetch_all_proxies`: concatenate the per-source candidate
lists (one entry of `sources` per configured source URL) and deduplicate
with `list(set(...))`, modelled order-free by `List.dedup`. -/
def fetch_all_proxies (sources : List (Option SourceResponse)) : List String :=
  ((sources.map fetch_proxies_from_source).flatten).dedup

/-- Outcome of one proxied GET: final status code, whether the
Content-Type header mentions json, the parsed `ip`/`origin` fields when
the body parses as JSON (`none` when `response.json()` raises), the raw
body text, and the measured wall-clock latency in seconds. -/
structure HttpResponse where
  statusCode : Nat
  contentTypeJson : Bool
  jsonFields : Option (Option String × Option String)
  text : String
  latency : ℚ
deriving DecidableEq

/-- The network oracle for proxied requests: proxy URL and website to
response, `none` for any raised request exception. -/
abbrev Net := String → String → Option HttpResponse

/-- Python `round(x, 2)`: round half to even at two decimal places. -/
def pyRound2 (q : ℚ) : ℚ :=
  let scaled := q * 100
  let fl : ℤ := Int.floor scaled
  let frac := scaled - (fl : ℚ)
  let n : ℤ :=
    if frac < 1 / 2 then fl
    else if 1 / 2 < frac then fl + 1
    else if fl % 2 = 0 then fl else fl + 1
  (n : ℚ) / 100

/-- The `proxy_url` computed in `test_single_proxy`: prepend `socks5://`
unless the candidate already carries a scheme. -/
def toProxyUrl (proxy : String) : String :=
  if containsSchemeSep proxy.data then proxy else "socks5://" ++ proxy

/-- The per-check result dictionary built by `test_single_proxy`. -/
structure TestResult where
  proxy : String
  website : String
  status_code : Nat
  ip : String
  latency : ℚ
  success : Bool
deriving DecidableEq

/-- IP extraction inside `test_single_proxy`: for a json Content-Type take
the `ip` field, else the `origin` field, else the stripped body; a json
parse failure (`none`) propagates as a raised exception. -/
def extractReturnedIp (resp : HttpResponse) : Option String :=
  if resp.contentTypeJson then
    match resp.jsonFields with
    | none => none
    | some (some ipField, _) => some ipField
    | some (none, some originField) => some originField
    | some (none, none) => some (pyStrip resp.text)
  else some (pyStrip resp.text)

/-- `ProxyTester.test_single_proxy`: one GET through the candidate; any
exception (including `raise_for_status` on 4xx/5xx and a json parse
failure) yields `none`; a non-200, non-raising status also falls through
to `None`; a 200 yields the result record with the rounded latency. -/
def test_single_proxy (net : Net) (proxy website : String) : Option TestResult :=
  match net (toProxyUrl proxy) website with
  | none => none
  | some resp =>
    if 400 ≤ resp.statusCode then none
    else if resp.statusCode = 200 then
      match extractReturnedIp resp with
      | none => none
      | some returned_ip =>
        some { proxy := proxy, website := website, status_code := resp.statusCode,
               ip := returned_ip, latency := pyRound2 resp.latency, success := true }
    else none

/-- The three configured echo endpoints (`TEST_WEBSITES`). -/
def TEST_WEBSITES : List String :=
  ["https://icanhazip.com", "https://api.ipify.org", "http://httpbin.org/ip"]

/-- The loop body of `test_proxy_on_all_sites`: probe the sites in order,
`none` as soon as one probe fails. -/
def test_sites_go (net : Net) (proxy : String) : List String → Option (List TestResult)
  | [] => some []
  | w :: ws =>
    match test_single_proxy net proxy w with
    | none => none
    | some r =>
      match test_sites_go net proxy ws with
      | none => none
      | some rs => some (r :: rs)

/-- `ProxyTester.test_proxy_on_all_sites`: all sites must pass, any single
failure discards the partial results and returns `[]`. -/
def test_proxy_on_all_sites (net : Net) (proxy : String) : List TestResult :=
  match test_sites_go net proxy TEST_WEBSITES with
  | none => []
  | some rs => rs

/-- The collection loop of `test_proxies_batch` over the dispatched
candidates, in submission order: a candidate with a nonempty result list
contributes its results and joins the working list. -/
def batch_go (net : Net) : List String → List TestResult × List String
  | [] => ([], [])
  | p :: ps =>
    let rs := test_proxy_on_all_sites net p
    let acc := batch_go net ps
    if rs = [] then acc else (rs ++ acc.1, p :: acc.2)

/-- `ProxyTester.test_proxies_batch`: cap the pool at `max_tests`
candidates, then validate each one. -/
def test_proxies_batch (net : Net) (proxies : List String) (max_tests : Nat) :
    List TestResult × List String :=
  batch_go net (proxies.take max_tests)

/-- The summary fields of the `detailed_results` dictionary written to
`proxy_results.json` by `save_results`. -/
structure JsonRecord where
  total_proxies_fetched : Nat
  total_proxies_tested : Nat
  working_proxies_count : Nat
  results : List TestResult
deriving DecidableEq

/-- Content of `available_proxies.txt`: either the header block (total
fetched, working count) followed by the working proxies one per line, or
the fallback note written when no proxy worked. -/
inductive AvailableTxt
  | header (total working : Nat) (proxies : List String)
  | noneFound
deriving DecidableEq

/-- One row of the HTML report table, as computed in
`generate_html_report`. -/
structure ProxyStat where
  proxy : String
  avg_latency : ℚ
  success_rate : ℚ
deriving DecidableEq

/-- The observable content of `proxy_report.html`: the ranked table. -/
structure HtmlReport where
  stats : List ProxyStat
deriving DecidableEq

/-- The four files a run can write; `none` means the file was not touched
by this run (so a stale copy from an earlier run may remain). -/
structure Files where
  results_json : Option JsonRecord
  available_txt : Option AvailableTxt
  best_txt : Option String
  report_html : Option HtmlReport
deriving DecidableEq

/-- The comparison key of the latency sort in `save_results`. -/
def latLE (a b : TestResult) : Prop := a.latency ≤ b.latency

instance : DecidableRel latLE := fun a b =>
  inferInstanceAs (Decidable (a.latency ≤ b.latency))

instance : IsTotal TestResult latLE := ⟨fun a b => le_total a.latency b.latency⟩

instance : IsTrans TestResult latLE := ⟨fun _ _ _ hab hbc => le_trans hab hbc⟩

/-- Python `sorted` is an ascending stable sort; `List.insertionSort`
with the same key has exactly that behaviour. -/
def sortedByLatency (results : List TestResult) : List TestResult :=
  List.insertionSort latLE results

/-- The number of distinct proxies named in the result list, as counted
for the `total_proxies_tested` field. -/
def proxiesTestedCount (results : List TestResult) : Nat :=
  ((results.map TestResult.proxy).dedup).length

/-- The proxy of the first element of the latency-sorted result list,
i.e. the content written to `BEST_SOCKS5.txt`. -/
def bestProxyOf (results : List TestResult) : Option String :=
  (sortedByLatency results).head?.map TestResult.proxy

/-- One step of the grouping loop in `generate_html_report`: append the
result to the entry of its proxy, creating the entry on first sight
(Python dicts preserve insertion order). -/
def addToGroups (gs : List (String × List TestResult)) (r : TestResult) :
    List (String × List TestResult) :=
  if r.proxy ∈ gs.map Prod.fst then
    gs.map (fun g => if g.1 = r.proxy then (g.1, g.2 ++ [r]) else g)
  else gs ++ [(r.proxy, [r])]

/-- The `proxy_groups` dictionary of `generate_html_report`. -/
def proxy_groups (results : List TestResult) : List (String × List TestResult) :=
  results.foldl addToGroups []

/-- One `proxy_stats` entry: average latency over the group and the
success rate relative to the number of configured test websites. -/
def statOfGroup (g : String × List TestResult) : ProxyStat :=
  { proxy := g.1
  , avg_latency := (g.2.map TestResult.latency).sum / (g.2.length : ℚ)
  , success_rate := 100 * (g.2.length : ℚ) / (TEST_WEBSITES.length : ℚ) }

/-- The comparison key of the average-latency sort in
`generate_html_report`. -/
def statLE (a b : ProxyStat) : Prop := a.avg_latency ≤ b.avg_latency

instance : DecidableRel statLE := fun a b =>
  inferInstanceAs (Decidable (a.avg_latency ≤ b.avg_latency))

instance : IsTotal ProxyStat statLE := ⟨fun a b => le_total a.avg_latency b.avg_latency⟩

instance : IsTrans ProxyStat statLE := ⟨fun _ _ _ hab hbc => le_trans hab hbc⟩

/-- The ranked table of `generate_html_report`: group by proxy, take the
mean latency of each group, sort ascending by that mean. -/
def proxy_stats (results : List TestResult) : List ProxyStat :=
  List.insertionSort statLE ((proxy_groups results).map statOfGroup)

/-- `ProxyTester.generate_html_report`, reduced to its observable data. -/
def generate_html_report (record : JsonRecord) : HtmlReport :=
  { stats := proxy_stats record.results }

/-- `ProxyTester.save_results`: the json record, the text list (header
plus the working proxies in collection order), the best-proxy file (only
when both lists are nonempty), and the HTML report. -/
def save_results (results : List TestResult) (working_proxies : List String)
    (all_proxies_count : Nat) : Files :=
  let record : JsonRecord :=
    { total_proxies_fetched := all_proxies_count
    , total_proxies_tested := proxiesTestedCount results
    , working_proxies_count := working_proxies.length
    , results := results }
  { results_json := some record
  , available_txt := some (.header all_proxies_count working_proxies.length working_proxies)
  , best_txt := if working_proxies = [] ∨ results = [] then none else bestProxyOf results
  , report_html := some (generate_html_report record) }

/-- `ProxyTester.load_previous_best_proxy`: the stripped file content,
kept only when nonempty and containing a colon; `none` models a missing
file or a read failure. -/
def load_previous_best_proxy (bestFile : Option String) : Option String :=
  match bestFile with
  | none => none
  | some content =>
    let proxy := pyStrip content
    if proxy ≠ "" ∧ pyContainsChar proxy ':' then some proxy else none

/-- The external world of one run: the persisted best file, the fetch
outcome of each configured source URL, the proxied-request oracle, and
the permutation applied by `random.shuffle`. -/
structure Env where
  bestFile : Option String
  sources : List (Option SourceResponse)
  net : Net
  shuffle : List String → List String

/-- What a run observably did: the files it wrote, whether it invoked
`fetch_all_proxies`, and the process exit code (0 on every modelled path:
`run` raises no exception on them and `main` then finishes normally). -/
structure RunOutcome where
  files : Files
  fetchedSources : Bool
  exitCode : Nat
deriving DecidableEq

/-- A run that wrote no file at all. -/
def emptyFiles : Files :=
  { results_json := none, available_txt := none, best_txt := none, report_html := none }

/-- Steps 2 to 5 of `ProxyTester.run`: fetch, bail out writing nothing if
the pool is empty, shuffle, batch-test at most 100 candidates, then save
results or only the fallback note. -/
def runFull (env : Env) : RunOutcome :=
  let all_proxies := fetch_all_proxies env.sources
  if all_proxies = [] then
    { files := emptyFiles, fetchedSources := true, exitCode := 0 }
  else
    let shuffled := env.shuffle all_proxies
    let rw := test_proxies_batch env.net shuffled 100
    if rw.1 ≠ [] ∧ rw.2 ≠ [] then
      { files := save_results rw.1 rw.2 all_proxies.length
      , fetchedSources := true, exitCode := 0 }
    else
      { files := { emptyFiles with available_txt := some AvailableTxt.noneFound }
      , fetchedSources := true, exitCode := 0 }

/-- `ProxyTester.run`: revalidate the persisted best candidate first and
short-circuit when it still passes; otherwise run the full pipeline. -/
def run (env : Env) : RunOutcome :=
  match load_previous_best_proxy env.bestFile with
  | some previous_best =>
    let test_result := test_proxy_on_all_sites env.net previous_best
    if test_result = [] then runFull env
    else
      { files := save_results test_result [previous_best] 1
      , fetchedSources := false, exitCode := 0 }
  | none => runFull env

/-- Splitter at dots, for the spec-side IPv4 check. -/
def splitOnDotGo : List Char → List Char → List String
  | [], acc => [String.mk acc.reverse]
  | c :: rest, acc =>
    if c = '.' then String.mk acc.reverse :: splitOnDotGo rest []
    else splitOnDotGo rest (c :: acc)

/-- Decimal digit test over character codes. -/
def isDigitChar (c : Char) : Bool :=
  decide (48 ≤ c.toNat) && decide (c.toNat ≤ 57)

/-- Numeric value of a digit string. -/
def parseDecimal (p : List Char) : Nat :=
  p.foldl (fun n c => n * 10 + (c.toNat - 48)) 0

/-- Modelled from the spec: a syntactically valid IPv4 literal is four
dot-separated decimal components, each nonempty, at most three digits and
at most 255.  The source performs no such check; this definition exists
only to compare its behaviour with the specified one. -/
def specIsValidIPv4 (s : String) : Bool :=
  let parts := splitOnDotGo s.data []
  parts.length == 4 && parts.all (fun p =>
    !(p = "") && decide (p.length ≤ 3) && p.data.all isDigitChar &&
      decide (parseDecimal p.data ≤ 255))

/-- Drop everything up to and including the first scheme separator. -/
def specNormalizeGo : List Char → List Char
  | ':' :: '/' :: '/' :: rest => rest
  | _ :: rest => specNormalizeGo rest
  | [] => []

/-- Modelled from the spec: normalization of a raw candidate strips a
scheme such as `socks5://` and keeps the remainder intact.  The source
deduplicates raw strings without this normalization; the definition
exists only for comparison. -/
def specNormalize (s : String) : String :=
  if containsSchemeSep s.data then String.mk (specNormalizeGo s.data) else s

/-- Modelled from the spec: the first whitespace-delimited token of a
line.  The source only splits when the line contains a space character;
the definition exists only for comparison. -/
def specFirstToken (s : String) : String :=
  String.mk ((s.data.dropWhile isSpaceChar).takeWhile (fun c => !isSpaceChar c))

/-- Any result produced by `test_single_proxy` carries the probed proxy
and website, the success flag, and status 200. -/
theorem test_single_proxy_some {net : Net} {p w : String} {r : TestResult}
    (h : test_single_proxy net p w = some r) :
    r.proxy = p ∧ r.website = w ∧ r.status_code = 200 ∧ r.success = true := by
  unfold test_single_proxy at h
  cases hnet : net (toProxyUrl p) w with
  | none => rw [hnet] at h; exact absurd h (by simp)
  | some resp =>
    rw [hnet] at h
    dsimp only at h
    by_cases h4 : 400 ≤ resp.statusCode
    · simp [h4] at h
    · rw [if_neg h4] at h
      by_cases h2 : resp.statusCode = 200
      · rw [if_pos h2] at h
        cases hext : extractReturnedIp resp with
        | none => rw [hext] at h; exact absurd h (by simp)
        | some ipStr =>
          rw [hext] at h
          rw [Option.some.injEq] at h
          subst h
          exact ⟨rfl, rfl, h2, rfl⟩
      · rw [if_neg h2] at h
        exact absurd h (by simp)

/-- When the site loop succeeds, it yields one result per site in the
given order, and every result passed with status 200 for this proxy. -/
theorem test_sites_go_some {net : Net} {p : String} :
    ∀ {sites : List String} {rs : List TestResult},
      test_sites_go net p sites = some rs →
      rs.map TestResult.website = sites ∧
        ∀ r ∈ rs, r.proxy = p ∧ r.success = true ∧ r.status_code = 200 := by
  intro sites
  induction sites with
  | nil =>
    intro rs h
    unfold test_sites_go at h
    rw [Option.some.injEq] at h
    subst h
    exact ⟨rfl, by intro r hr; exact absurd hr (List.not_mem_nil r)⟩
  | cons w ws ih =>
    intro rs h
    unfold test_sites_go at h
    cases h1 : test_single_proxy net p w with
    | none => rw [h1] at h; exact absurd h (by simp)
    | some r =>
      rw [h1] at h
      cases h2 : test_sites_go net p ws with
      | none => rw [h2] at h; exact absurd h (by simp)
      | some rs' =>
        rw [h2] at h
        rw [Option.some.injEq] at h
        subst h
        obtain ⟨hmap, hall⟩ := ih h2
        obtain ⟨hp, hw, hs, _⟩ := test_single_proxy_some h1
        refine ⟨?_, ?_⟩
        · simp only [List.map_cons, hmap, hw]
        · intro x hx
          rcases List.mem_cons.1 hx with hx | hx
          · subst hx
            exact ⟨hp, (test_single_proxy_some h1).2.2.2, hs⟩
          · exact hall x hx

/-- If any probed site fails, the whole site loop fails. -/
theorem test_sites_go_none {net : Net} {p w : String} :
    ∀ {sites : List String}, w ∈ sites →
      test_single_proxy net p w = none →
      test_sites_go net p sites = none := by
  intro sites
  induction sites with
  | nil => intro hmem; exact absurd hmem (List.not_mem_nil w)
  | cons v vs ih =>
    intro hmem hfail
    rcases List.mem_cons.1 hmem with hv | hv
    · subst hv
      unfold test_sites_go
      rw [hfail]
    · unfold test_sites_go
      cases h1 : test_single_proxy net p v with
      | none => rfl
      | some r => rw [ih hv hfail]

/-- `test_proxy_on_all_sites` either rejects the candidate outright or
returns exactly one passing result per configured website, in order. -/
theorem test_proxy_on_all_sites_spec (net : Net) (p : String) :
    test_proxy_on_all_sites net p = [] ∨
      ((test_proxy_on_all_sites net p).map TestResult.website = TEST_WEBSITES ∧
        ∀ r ∈ test_proxy_on_all_sites net p,
          r.proxy = p ∧ r.success = true ∧ r.status_code = 200) := by
  unfold test_proxy_on_all_sites
  cases hg : test_sites_go net p TEST_WEBSITES with
  | none => exact Or.inl rfl
  | some rs => exact Or.inr (test_sites_go_some hg)

/-- Every result in a per-candidate validation names that candidate. -/
theorem test_proxy_on_all_sites_proxy {net : Net} {p : String} {r : TestResult}
    (hr : r ∈ test_proxy_on_all_sites net p) : r.proxy = p := by
  rcases test_proxy_on_all_sites_spec net p with h | h
  · rw [h] at hr; exact absurd hr (List.not_mem_nil r)
  · exact (h.2 r hr).1

/-- The best-proxy file names a result of minimal recorded latency. -/
theorem bestProxyOf_min {results : List TestResult} (h : results ≠ []) :
    ∃ r ∈ results, bestProxyOf results = some r.proxy ∧
      ∀ x ∈ results, r.latency ≤ x.latency := by
  have hperm := List.perm_insertionSort latLE results
  have hsort := List.sorted_insertionSort latLE results
  cases hs : List.insertionSort latLE results with
  | nil =>
    rw [hs] at hperm
    exact absurd hperm.symm.eq_nil h
  | cons r t =>
    refine ⟨r, ?_, ?_, ?_⟩
    · have : r ∈ List.insertionSort latLE results := by
        rw [hs]; exact List.mem_cons_self r t
      exact (List.mem_insertionSort latLE).1 this
    · unfold bestProxyOf sortedByLatency
      rw [hs]
      rfl
    · intro x hx
      have hxs : x ∈ List.insertionSort latLE results :=
        (List.mem_insertionSort latLE).2 hx
      rw [hs] at hxs
      rcases List.mem_cons.1 hxs with hx1 | hx1
      · subst hx1; exact le_refl _
      · rw [hs] at hsort
        exact List.rel_of_sorted_cons hsort x hx1

/-- A nonempty list all of whose members equal `a` has `{a}` as its
element set. -/
theorem toFinset_of_all_eq {l : List String} {a : String}
    (hne : l ≠ []) (hall : ∀ x ∈ l, x = a) : l.toFinset = {a} := by
  ext x
  simp only [List.mem_toFinset, Finset.mem_singleton]
  constructor
  · intro hx; exact hall x hx
  · intro hx
    subst hx
    cases l with
    | nil => exact absurd rfl hne
    | cons y t =>
      have : y = x := hall y (List.mem_cons_self y t)
      rw [← this]
      exact List.mem_cons_self y t

/-- The working list collected by the batch loop is a sublist of the
dispatched candidate list. -/
theorem batch_go_sublist (net : Net) :
    ∀ ps : List String, (batch_go net ps).2.Sublist ps := by
  intro ps
  induction ps with
  | nil => simp [batch_go]
  | cons p ps ih =>
    unfold batch_go
    by_cases hrs : test_proxy_on_all_sites net p = []
    · rw [if_pos hrs]
      exact ih.cons p
    · rw [if_neg hrs]
      exact ih.cons₂ p

/-- The proxies named in the collected results are exactly the proxies of
the working list. -/
theorem batch_go_toFinset (net : Net) :
    ∀ ps : List String,
      ((batch_go net ps).1.map TestResult.proxy).toFinset = (batch_go net ps).2.toFinset := by
  intro ps
  induction ps with
  | nil => simp [batch_go]
  | cons p ps ih =>
    unfold batch_go
    by_cases hrs : test_proxy_on_all_sites net p = []
    · rw [if_pos hrs]
      exact ih
    · rw [if_neg hrs]
      simp only [List.map_append, List.toFinset_append, List.toFinset_cons]
      rw [ih]
      have hconst : ((test_proxy_on_all_sites net p).map TestResult.proxy).toFinset = {p} := by
        apply toFinset_of_all_eq
        · intro hm
          exact hrs (List.map_eq_nil_iff.1 hm)
        · intro x hx
          obtain ⟨r, hr, hxeq⟩ := List.mem_map.1 hx
          rw [← hxeq]
          exact test_proxy_on_all_sites_proxy hr
      rw [hconst]
      ext x
      simp [Finset.mem_union, Finset.mem_insert, Finset.mem_singleton]

/-- For a duplicate-free dispatch list, the number of distinct proxies in
the collected results equals the length of the working list. -/
theorem batch_go_tested_count (net : Net) (ps : List String) (hnd : ps.Nodup) :
    proxiesTestedCount (batch_go net ps).1 = (batch_go net ps).2.length := by
  have hw : (batch_go net ps).2.Nodup := (batch_go_sublist net ps).nodup hnd
  unfold proxiesTestedCount
  rw [← List.card_toFinset, batch_go_toFinset net ps, List.card_toFinset, hw.dedup]

/-- One grouping step preserves the dictionary invariant: keys are
distinct, each entry holds exactly the processed results of its proxy,
every processed result has an entry, and every entry was created by some
processed result. -/
theorem addToGroups_step (gs : List (String × List TestResult)) (r : TestResult)
    (done : List TestResult)
    (hnd : (gs.map Prod.fst).Nodup)
    (hval : ∀ g ∈ gs, g.2 = done.filter (fun x => x.proxy == g.1))
    (hcov : ∀ x ∈ done, x.proxy ∈ gs.map Prod.fst)
    (hwit : ∀ g ∈ gs, ∃ x ∈ done, x.proxy = g.1) :
    ((addToGroups gs r).map Prod.fst).Nodup ∧
    (∀ g ∈ addToGroups gs r, g.2 = (done ++ [r]).filter (fun x => x.proxy == g.1)) ∧
    (∀ x ∈ done ++ [r], x.proxy ∈ (addToGroups gs r).map Prod.fst) ∧
    (∀ g ∈ addToGroups gs r, ∃ x ∈ done ++ [r], x.proxy = g.1) := by
  by_cases hmem : r.proxy ∈ gs.map Prod.fst
  · have heq : addToGroups gs r =
        gs.map (fun g => if g.1 = r.proxy then (g.1, g.2 ++ [r]) else g) := by
      unfold addToGroups
      rw [if_pos hmem]
    have hkeys : (addToGroups gs r).map Prod.fst = gs.map Prod.fst := by
      rw [heq, List.map_map]
      apply List.map_congr_left
      intro g _
      by_cases h : g.1 = r.proxy <;> simp [h]
    refine ⟨?_, ?_, ?_, ?_⟩
    · rw [hkeys]; exact hnd
    · intro g' hg'
      rw [heq] at hg'
      obtain ⟨g, hg, rfl⟩ := List.mem_map.1 hg'
      by_cases h : g.1 = r.proxy
      · rw [if_pos h]
        show g.2 ++ [r] = (done ++ [r]).filter (fun x => x.proxy == g.1)
        rw [List.filter_append, ← hval g hg]
        congr 1
        simp [h]
      · rw [if_neg h]
        show g.2 = (done ++ [r]).filter (fun x => x.proxy == g.1)
        rw [List.filter_append, ← hval g hg]
        have hne : ¬(r.proxy == g.1) = true := by
          simp only [beq_iff_eq]
          intro hx
          exact h hx.symm
        simp [List.filter, hne]
    · intro x hx
      rw [hkeys]
      rcases List.mem_append.1 hx with hx | hx
      · exact hcov x hx
      · rw [List.mem_singleton.1 hx]
        exact hmem
    · intro g' hg'
      rw [heq] at hg'
      obtain ⟨g, hg, rfl⟩ := List.mem_map.1 hg'
      obtain ⟨x, hxd, hxp⟩ := hwit g hg
      by_cases h : g.1 = r.proxy
      · exact ⟨x, List.mem_append_left _ hxd, by rw [if_pos h]; exact hxp⟩
      · exact ⟨x, List.mem_append_left _ hxd, by rw [if_neg h]; exact hxp⟩
  · have heq : addToGroups gs r = gs ++ [(r.proxy, [r])] := by
      unfold addToGroups
      rw [if_neg hmem]
    have hkeys : (addToGroups gs r).map Prod.fst = gs.map Prod.fst ++ [r.proxy] := by
      rw [heq]; simp
    refine ⟨?_, ?_, ?_, ?_⟩
    · rw [hkeys]
      rw [(List.perm_append_singleton _ _).nodup_iff]
      exact List.nodup_cons.2 ⟨hmem, hnd⟩
    · intro g hg
      rw [heq] at hg
      rcases List.mem_append.1 hg with hg | hg
      · have hne : ¬(r.proxy == g.1) = true := by
          simp only [beq_iff_eq]
          intro hx
          exact hmem (hx ▸ List.mem_map_of_mem Prod.fst hg)
        rw [List.filter_append, ← hval g hg]
        simp [List.filter, hne]
      · rw [List.mem_singleton.1 hg]
        show [r] = (done ++ [r]).filter (fun x => x.proxy == r.proxy)
        rw [List.filter_append]
        have hdone : done.filter (fun x => x.proxy == r.proxy) = [] := by
          rw [List.filter_eq_nil_iff]
          intro x hxd hxe
          rw [beq_iff_eq] at hxe
          exact hmem (hxe ▸ hcov x hxd)
        rw [hdone]
        simp [List.filter]
    · intro x hx
      rw [hkeys]
      rcases List.mem_append.1 hx with hx | hx
      · exact List.mem_append_left _ (hcov x hx)
      · rw [List.mem_singleton.1 hx]
        exact List.mem_append_right _ (List.mem_singleton.2 rfl)
    · intro g hg
      rw [heq] at hg
      rcases List.mem_append.1 hg with hg | hg
      · obtain ⟨x, hxd, hxp⟩ := hwit g hg
        exact ⟨x, List.mem_append_left _ hxd, hxp⟩
      · rw [List.mem_singleton.1 hg]
        exact ⟨r, List.mem_append_right _ (List.mem_singleton.2 rfl), rfl⟩

/-- The grouping fold keeps the dictionary invariant over the whole
processed list. -/
theorem foldl_addToGroups_spec :
    ∀ (more done : List TestResult) (gs : List (String × List TestResult)),
      (gs.map Prod.fst).Nodup →
      (∀ g ∈ gs, g.2 = done.filter (fun x => x.proxy == g.1)) →
      (∀ x ∈ done, x.proxy ∈ gs.map Prod.fst) →
      (∀ g ∈ gs, ∃ x ∈ done, x.proxy = g.1) →
      ((more.foldl addToGroups gs).map Prod.fst).Nodup ∧
        (∀ g ∈ more.foldl addToGroups gs,
          g.2 = (done ++ more).filter (fun x => x.proxy == g.1)) ∧
        (∀ g ∈ more.foldl addToGroups gs, ∃ x ∈ done ++ more, x.proxy = g.1) := by
  intro more
  induction more with
  | nil =>
    intro done gs hnd hval _ hwit
    rw [List.foldl_nil, List.append_nil]
    exact ⟨hnd, hval, hwit⟩
  | cons r more ih =>
    intro done gs hnd hval hcov hwit
    obtain ⟨hnd1, hval1, hcov1, hwit1⟩ := addToGroups_step gs r done hnd hval hcov hwit
    have := ih (done ++ [r]) (addToGroups gs r) hnd1 hval1 hcov1 hwit1
    rw [List.append_assoc, List.singleton_append] at this
    simpa [List.foldl_cons] using this

/-- The grouped dictionary of `generate_html_report`: each entry holds
exactly the results of its proxy, and each entry is inhabited. -/
theorem proxy_groups_spec (results : List TestResult) :
    ((proxy_groups results).map Prod.fst).Nodup ∧
      (∀ g ∈ proxy_groups results,
        g.2 = results.filter (fun x => x.proxy == g.1)) ∧
      (∀ g ∈ proxy_groups results, ∃ x ∈ results, x.proxy = g.1) := by
  have := foldl_addToGroups_spec results [] [] (by simp) (by simp) (by simp) (by simp)
  simpa [proxy_groups] using this

/-- The ranked HTML table is sorted ascending by displayed latency. -/
theorem proxy_stats_sorted (results : List TestResult) :
    List.Sorted statLE (proxy_stats results) :=
  List.sorted_insertionSort statLE _

/-- Every displayed latency is the arithmetic mean of the latencies of
the check results of that proxy: multiplied by the number of its checks
it gives back their sum. -/
theorem proxy_stats_avg {results : List TestResult} {s : ProxyStat}
    (hs : s ∈ proxy_stats results) :
    s.avg_latency * ((results.filter (fun x => x.proxy == s.proxy)).length : ℚ)
      = ((results.filter (fun x => x.proxy == s.proxy)).map TestResult.latency).sum := by
  unfold proxy_stats at hs
  have hs2 := (List.mem_insertionSort statLE).1 hs
  obtain ⟨g, hg, rfl⟩ := List.mem_map.1 hs2
  obtain ⟨_, hval, hwit⟩ := proxy_groups_spec results
  have hgval := hval g hg
  obtain ⟨x, hxr, hxp⟩ := hwit g hg
  have hproxy : (statOfGroup g).proxy = g.1 := rfl
  rw [hproxy, ← hgval]
  have hne : g.2 ≠ [] := by
    rw [hgval]
    intro hnil
    have hxf : x ∈ results.filter (fun y => y.proxy == g.1) :=
      List.mem_filter.2 ⟨hxr, by rw [beq_iff_eq]; exact hxp⟩
    rw [hnil] at hxf
    exact absurd hxf (List.not_mem_nil x)
  have hlen : ((g.2.length : ℚ)) ≠ 0 := by
    rw [Nat.cast_ne_zero]
    exact fun h0 => hne (List.length_eq_zero.1 h0)
  show (g.2.map TestResult.latency).sum / (g.2.length : ℚ) * (g.2.length : ℚ)
      = (g.2.map TestResult.latency).sum
  exact div_mul_cancel₀ _ hlen

/-- A network oracle on which every proxied request fails. -/
def netFail : Net := fun _ _ => none

/-- A network oracle that always answers 200 with the plain body
`1.1.1.1`. -/
def netPlain : Net := fun _ _ => some ⟨200, false, none, "1.1.1.1", 1⟩

/-- A network oracle that always answers 200 with an HTML error page as
body. -/
def netHtmlBody : Net := fun _ _ => some ⟨200, false, none, "<html>error page</html>", 1⟩

/-- A network oracle on which only the candidate `b:1` works. -/
def netOnlyB : Net := fun p _ =>
  if p = "socks5://b:1" then some ⟨200, false, none, "1.1.1.1", 1⟩ else none

/-- C4: in multi-site mode a candidate is accepted only if every
configured echo check succeeds; one failing check empties the whole
per-candidate result. -/
theorem multi_site_all_or_nothing (net : Net) (p w : String)
    (hw : w ∈ TEST_WEBSITES) (hfail : test_single_proxy net p w = none) :
    test_proxy_on_all_sites net p = [] := by
  unfold test_proxy_on_all_sites
  rw [test_sites_go_none hw hfail]

/-- C4 witness: a candidate that fails on the first echo endpoint is
rejected outright. -/
theorem multi_site_all_or_nothing_witness :
    test_proxy_on_all_sites netFail "1.2.3.4:1080" = [] :=
  multi_site_all_or_nothing netFail "1.2.3.4:1080" "https://icanhazip.com"
    (by decide) (by decide)

/-- C10: the per-candidate validation returns either the empty list or
exactly one result per configured test website, in website order, and
every returned result has its success flag true and status code 200. -/
theorem per_candidate_result_shape (net : Net) (p : String) :
    test_proxy_on_all_sites net p = [] ∨
      ((test_proxy_on_all_sites net p).map TestResult.website = TEST_WEBSITES ∧
        ∀ r ∈ test_proxy_on_all_sites net p, r.success = true ∧ r.status_code = 200) := by
  rcases test_proxy_on_all_sites_spec net p with h | ⟨hmap, hall⟩
  · exact Or.inl h
  · exact Or.inr ⟨hmap, fun r hr => ⟨(hall r hr).2.1, (hall r hr).2.2⟩⟩

/-- C1 counterexample: a candidate whose echo responses are an HTML error
page still produces validation results, and the recorded exit IP is not a
syntactically valid IPv4 literal; no reference IP is ever consulted. -/
theorem exit_ip_unchecked_cex :
    (test_proxy_on_all_sites netHtmlBody "1.2.3.4:1080").map TestResult.ip
        = ["<html>error page</html>", "<html>error page</html>", "<html>error page</html>"] ∧
      specIsValidIPv4 "<html>error page</html>" = false ∧
      test_proxy_on_all_sites netHtmlBody "1.2.3.4:1080" ≠ [] := by
  refine ⟨by decide, by decide, by decide⟩

/-- C1 amended: on any 200 response with a plain body the Validator
records the stripped body verbatim as the exit IP and produces a result,
with no IPv4 syntax check and no comparison against a reference IP (the
code never obtains one). -/
theorem exit_ip_recorded_verbatim (net : Net) (p w : String) (resp : HttpResponse)
    (hnet : net (toProxyUrl p) w = some resp)
    (h200 : resp.statusCode = 200) (hjson : resp.contentTypeJson = false) :
    test_single_proxy net p w =
      some ⟨p, w, resp.statusCode, pyStrip resp.text, pyRound2 resp.latency, true⟩ := by
  unfold test_single_proxy
  rw [hnet]
  dsimp only
  rw [if_neg (by rw [h200]; norm_num), if_pos h200]
  unfold extractReturnedIp
  rw [hjson]
  simp [h200]

/-- C1 witness: a response body equal to a known reference IP `9.9.9.9`
is still recorded as a passing result. -/
theorem exit_ip_recorded_verbatim_witness :
    test_single_proxy netPlain "9.9.9.9:1080" "https://icanhazip.com" =
      some ⟨"9.9.9.9:1080", "https://icanhazip.com",
            (200 : Nat), pyStrip "1.1.1.1", pyRound2 1, true⟩ :=
  exit_ip_recorded_verbatim netPlain "9.9.9.9:1080" "https://icanhazip.com"
    ⟨200, false, none, "1.1.1.1", 1⟩ rfl rfl rfl

/-- A source body carrying the same endpoint with and without a scheme. -/
def schemeDupSources : List (Option SourceResponse) :=
  [some ⟨200, "socks5://1.2.3.4:1080\n1.2.3.4:1080"⟩]

/-- C6 counterexample: the pool keeps two entries that are identical
after the specified normalization, because deduplication compares raw
strings and never strips the scheme. -/
theorem dedup_no_normalization_cex :
    "socks5://1.2.3.4:1080" ∈ fetch_all_proxies schemeDupSources ∧
      "1.2.3.4:1080" ∈ fetch_all_proxies schemeDupSources ∧
      specNormalize "socks5://1.2.3.4:1080" = specNormalize "1.2.3.4:1080" ∧
      "socks5://1.2.3.4:1080" ≠ "1.2.3.4:1080" := by
  refine ⟨by decide, by decide, by decide, by decide⟩

/-- C6 amended: the merged pool holds no two entries that are identical
as raw strings (exact-string deduplication), and every candidate parsed
from any source is kept in the pool. -/
theorem dedup_exact_string (sources : List (Option SourceResponse))
    (s : Option SourceResponse) (hs : s ∈ sources)
    (p : String) (hp : p ∈ fetch_proxies_from_source s) :
    (fetch_all_proxies sources).Nodup ∧ p ∈ fetch_all_proxies sources := by
  constructor
  · exact List.nodup_dedup _
  · unfold fetch_all_proxies
    rw [List.mem_dedup]
    exact List.mem_flatten.2 ⟨fetch_proxies_from_source s, List.mem_map_of_mem _ hs, hp⟩

/-- C6 witness: a one-source pool is duplicate-free and keeps the parsed
candidate. -/
theorem dedup_exact_string_witness :
    (fetch_all_proxies [some ⟨200, "1.2.3.4:1080"⟩]).Nodup ∧
      "1.2.3.4:1080" ∈ fetch_all_proxies [some ⟨200, "1.2.3.4:1080"⟩] :=
  dedup_exact_string [some ⟨200, "1.2.3.4:1080"⟩] (some ⟨200, "1.2.3.4:1080"⟩)
    (by decide) "1.2.3.4:1080" (by decide)

/-- C7 counterexample: on a line whose metadata is separated by a tab
rather than a space, the fetcher keeps the whole line, not the first
whitespace-delimited token the claim describes. -/
theorem source_parse_token_cex :
    fetch_proxies_from_source (some ⟨200, "1.2.3.4:1080\tmetadata"⟩)
        = ["1.2.3.4:1080\tmetadata"] ∧
      specFirstToken "1.2.3.4:1080\tmetadata" = "1.2.3.4:1080" ∧
      "1.2.3.4:1080\tmetadata" ≠ "1.2.3.4:1080" := by
  refine ⟨by decide, by decide, by decide⟩

/-- The three per-source outcomes of Scenario A: one good list with a
comment, one failing source, one duplicate. -/
def scenarioASources : List (Option SourceResponse) :=
  [some ⟨200, "1.2.3.4:1080\n# comment\n5.6.7.8:1080"⟩, none, some ⟨200, "1.2.3.4:1080"⟩]

/-- C7 amended: blank lines and `#` comments are discarded and a failing
source contributes nothing, so Scenario A yields exactly the two-element
pool; the candidate is the part before the first space only when the line
contains a space character (other whitespace is kept), and tokens without
a colon are dropped. -/
theorem source_parse_scenario_a :
    (fetch_all_proxies scenarioASources).length = 2 ∧
      "1.2.3.4:1080" ∈ fetch_all_proxies scenarioASources ∧
      "5.6.7.8:1080" ∈ fetch_all_proxies scenarioASources ∧
      fetch_proxies_from_source none = [] ∧
      fetch_proxies_from_source (some ⟨500, "1.2.3.4:1080"⟩) = [] ∧
      fetch_proxies_from_source (some ⟨200, "1.2.3.4:1080 location metadata"⟩)
        = ["1.2.3.4:1080"] ∧
      fetch_proxies_from_source (some ⟨200, "nocolon token"⟩) = [] := by
  refine ⟨by decide, by decide, by decide, by decide, by decide, by decide, by decide⟩

/-- An environment in which there is no cached best proxy and every
source fetch fails. -/
def envAllFail : Env :=
  { bestFile := none, sources := [none, none, none], net := netFail, shuffle := id }

/-- C2 counterexample: when every source fetch fails, the run writes none
of the four artifacts; only the exit code matches the claim. -/
theorem total_failure_writes_nothing_cex :
    (run envAllFail).files.results_json = none ∧
      (run envAllFail).files.available_txt = none ∧
      (run envAllFail).files.best_txt = none ∧
      (run envAllFail).files.report_html = none ∧
      (run envAllFail).exitCode = 0 := by
  refine ⟨by decide, by decide, by decide, by decide, by decide⟩

/-- C2 amended: when the fast path does not fire and every source fetch
yields nothing, the run returns early having written no artifact at all,
and the process still exits with code 0. -/
theorem total_failure_exits_zero_no_artifacts (env : Env)
    (hfast : ∀ pb, load_previous_best_proxy env.bestFile = some pb →
      test_proxy_on_all_sites env.net pb = [])
    (hfail : ∀ s ∈ env.sources, fetch_proxies_from_source s = []) :
    (run env).files = emptyFiles ∧ (run env).exitCode = 0 ∧
      (run env).fetchedSources = true := by
  have hempty : fetch_all_proxies env.sources = [] := by
    unfold fetch_all_proxies
    have hfl : (env.sources.map fetch_proxies_from_source).flatten = [] := by
      rw [List.flatten_eq_nil_iff]
      intro l hl
      obtain ⟨s, hs, rfl⟩ := List.mem_map.1 hl
      exact hfail s hs
    rw [hfl]
    rfl
  have hrunFull : runFull env = ⟨emptyFiles, true, 0⟩ := by
    unfold runFull
    simp [hempty]
  cases hload : load_previous_best_proxy env.bestFile with
  | none =>
    unfold run
    rw [hload, hrunFull]
    exact ⟨rfl, rfl, rfl⟩
  | some pb =>
    unfold run
    rw [hload]
    dsimp only
    rw [if_pos (hfast pb hload), hrunFull]
    exact ⟨rfl, rfl, rfl⟩

/-- C2 witness: the all-sources-fail environment writes nothing and
exits 0. -/
theorem total_failure_exits_zero_no_artifacts_witness :
    (run envAllFail).files = emptyFiles ∧ (run envAllFail).exitCode = 0 ∧
      (run envAllFail).fetchedSources = true :=
  total_failure_exits_zero_no_artifacts envAllFail
    (fun _ h => Option.noConfusion h) (by decide)

/-- An environment with a cached best proxy that still validates. -/
def envFastPath : Env :=
  { bestFile := some "7.7.7.7:1080", sources := [], net := netPlain, shuffle := id }

/-- C3: when the persisted best candidate loads and still passes the full
validation, the run never fetches the sources, and both persisted lists
name exactly that one candidate. -/
theorem fast_path_short_circuit (env : Env) (pb : String)
    (hload : load_previous_best_proxy env.bestFile = some pb)
    (hpass : test_proxy_on_all_sites env.net pb ≠ []) :
    (run env).fetchedSources = false ∧
      (run env).files.available_txt = some (AvailableTxt.header 1 1 [pb]) ∧
      (run env).files.best_txt = some pb := by
  unfold run
  rw [hload]
  dsimp only
  rw [if_neg hpass]
  refine ⟨rfl, rfl, ?_⟩
  show (save_results (test_proxy_on_all_sites env.net pb) [pb] 1).best_txt = some pb
  show (if [pb] = [] ∨ test_proxy_on_all_sites env.net pb = [] then none
    else bestProxyOf (test_proxy_on_all_sites env.net pb)) = some pb
  rw [if_neg (not_or.mpr ⟨by simp, hpass⟩)]
  obtain ⟨r, hr, hbest, _⟩ := bestProxyOf_min hpass
  rw [hbest, test_proxy_on_all_sites_proxy hr]

/-- C3 witness: a concrete cached best that still passes short-circuits
the run. -/
theorem fast_path_short_circuit_witness :
    (run envFastPath).fetchedSources = false ∧
      (run envFastPath).files.available_txt
        = some (AvailableTxt.header 1 1 ["7.7.7.7:1080"]) ∧
      (run envFastPath).files.best_txt = some "7.7.7.7:1080" :=
  fast_path_short_circuit envFastPath "7.7.7.7:1080" (by decide) (by decide)

/-- A slower passing result collected before a faster one. -/
def rSlow : TestResult := ⟨"p1", "https://icanhazip.com", 200, "1.1.1.1", 2, true⟩

/-- A faster passing result collected after a slower one. -/
def rFast : TestResult := ⟨"p2", "https://icanhazip.com", 200, "1.1.1.1", 1, true⟩

/-- C5 counterexample: the persisted text list and json results stay in
collection order, which here is strictly decreasing in latency, while the
best file names the faster second entry; so not every artifact is a
latency-sorted listing with the best as its first element. -/
theorem artifacts_not_sorted_cex :
    (save_results [rSlow, rFast] ["p1", "p2"] 2).available_txt
        = some (AvailableTxt.header 2 2 ["p1", "p2"]) ∧
      (save_results [rSlow, rFast] ["p1", "p2"] 2).results_json.map JsonRecord.results
        = some [rSlow, rFast] ∧
      ¬ List.Chain' latLE [rSlow, rFast] ∧
      (save_results [rSlow, rFast] ["p1", "p2"] 2).best_txt = some "p2" := by
  refine ⟨rfl, rfl, ?_, ?_⟩
  · simp only [List.chain'_cons, List.chain'_singleton, and_true, latLE, rSlow, rFast]
    norm_num
  · show (if ["p1", "p2"] = [] ∨ [rSlow, rFast] = [] then none
      else bestProxyOf [rSlow, rFast]) = some "p2"
    rw [if_neg (by simp)]
    unfold bestProxyOf sortedByLatency
    norm_num [List.insertionSort, List.orderedInsert, latLE, rSlow, rFast]

/-- C5 amended: the text artifact lists the working proxies in collection
order with the run totals, and only the best file reflects the latency
order: it names a result of minimal recorded latency. -/
theorem best_artifact_minimal_latency (results : List TestResult)
    (working : List String) (n : Nat) (hr : results ≠ []) (hw : working ≠ []) :
    (save_results results working n).available_txt
        = some (AvailableTxt.header n working.length working) ∧
      ∃ r ∈ results, (save_results results working n).best_txt = some r.proxy ∧
        ∀ x ∈ results, r.latency ≤ x.latency := by
  refine ⟨rfl, ?_⟩
  obtain ⟨r, hrm, hbest, hmin⟩ := bestProxyOf_min hr
  refine ⟨r, hrm, ?_, hmin⟩
  show (if working = [] ∨ results = [] then none else bestProxyOf results) = some r.proxy
  rw [if_neg (not_or.mpr ⟨hw, hr⟩)]
  exact hbest

/-- A single passing check result used as a small concrete input. -/
def rOnly : TestResult := ⟨"p", "https://icanhazip.com", 200, "1.1.1.1", 1, true⟩

/-- C5 witness: on a one-element working set the best file names its only
result, which is trivially minimal. -/
theorem best_artifact_minimal_latency_witness :
    (save_results [rOnly] ["p"] 1).available_txt
        = some (AvailableTxt.header 1 1 ["p"]) ∧
      ∃ r ∈ [rOnly], (save_results [rOnly] ["p"] 1).best_txt = some r.proxy ∧
        ∀ x ∈ [rOnly], r.latency ≤ x.latency :=
  best_artifact_minimal_latency [rOnly] ["p"] 1 (by decide) (by decide)

/-- Check results of proxy `a`: one very fast and one very slow probe. -/
def rA1 : TestResult := ⟨"a", "w1", 200, "1.1.1.1", 1/10, true⟩

/-- Second check result of proxy `a`. -/
def rA2 : TestResult := ⟨"a", "w2", 200, "1.1.1.1", 5, true⟩

/-- Check results of proxy `b`: consistently moderate probes. -/
def rB1 : TestResult := ⟨"b", "w1", 200, "1.1.1.1", 1, true⟩

/-- Second check result of proxy `b`. -/
def rB2 : TestResult := ⟨"b", "w2", 200, "1.1.1.1", 1, true⟩

/-- The combined result list of the two proxies. -/
def meanCexResults : List TestResult := [rA1, rA2, rB1, rB2]

/-- C8 counterexample: proxy `b` has the smaller mean latency and tops
the HTML ranking, yet the best file names proxy `a`, whose single fastest
check wins the latency sort; so the mean is not what selects the best
candidate. -/
theorem best_not_by_mean_cex :
    (save_results meanCexResults ["a", "b"] 4).best_txt = some "a" ∧
      (proxy_stats meanCexResults).map ProxyStat.proxy = ["b", "a"] := by
  constructor
  · show (if ["a", "b"] = [] ∨ meanCexResults = [] then none
      else bestProxyOf meanCexResults) = some "a"
    rw [if_neg (by simp [meanCexResults])]
    unfold bestProxyOf sortedByLatency
    norm_num [List.insertionSort, List.orderedInsert, latLE,
      meanCexResults, rA1, rA2, rB1, rB2]
  · have hgroups : proxy_groups meanCexResults
        = [("a", [rA1, rA2]), ("b", [rB1, rB2])] := by
      simp [proxy_groups, meanCexResults, addToGroups, rA1, rA2, rB1, rB2]
    have hq : ¬ statLE (statOfGroup ("a", [rA1, rA2])) (statOfGroup ("b", [rB1, rB2])) := by
      norm_num [statLE, statOfGroup, rA1, rA2, rB1, rB2]
    have hstats : proxy_stats meanCexResults
        = [statOfGroup ("b", [rB1, rB2]), statOfGroup ("a", [rA1, rA2])] := by
      unfold proxy_stats
      rw [hgroups]
      simp only [List.map_cons, List.map_nil, List.insertionSort, List.orderedInsert]
      rw [if_neg hq]
    rw [hstats]
    rfl

/-- C8 amended: in the HTML report every displayed per-proxy latency is
the arithmetic mean of the check latencies of that proxy (multiplied by the
number of its checks it gives their sum), and the table is sorted
ascending by that mean; selection of the best file is settled separately
by the latency sort of individual checks. -/
theorem html_mean_and_ranking (record : JsonRecord) (s : ProxyStat)
    (hs : s ∈ (generate_html_report record).stats) :
    List.Sorted statLE (generate_html_report record).stats ∧
      s.avg_latency * ((record.results.filter (fun x => x.proxy == s.proxy)).length : ℚ)
        = ((record.results.filter (fun x => x.proxy == s.proxy)).map
            TestResult.latency).sum := by
  constructor
  · exact proxy_stats_sorted record.results
  · exact proxy_stats_avg hs

/-- C8 witness: the one-proxy report displays exactly the mean of its
single check. -/
theorem html_mean_and_ranking_witness :
    List.Sorted statLE (generate_html_report ⟨1, 1, 1, [rOnly]⟩).stats ∧
      (statOfGroup ("p", [rOnly])).avg_latency *
          (([rOnly].filter (fun x => x.proxy == (statOfGroup ("p", [rOnly])).proxy)).length : ℚ)
        = (([rOnly].filter (fun x => x.proxy == (statOfGroup ("p", [rOnly])).proxy)).map
            TestResult.latency).sum :=
  html_mean_and_ranking ⟨1, 1, 1, [rOnly]⟩ (statOfGroup ("p", [rOnly]))
    (by simp [generate_html_report, proxy_stats, proxy_groups, addToGroups,
      List.insertionSort, List.orderedInsert, rOnly])

/-- The total-tested field of the json artifact, when that artifact was
written. -/
def jsonTested (f : Files) : Option Nat :=
  f.results_json.map JsonRecord.total_proxies_tested

/-- C9 counterexample: two candidates are dispatched but only one passes,
and the recorded total-tested field is 1, not the dispatch count 2. -/
theorem total_tested_not_dispatch_count_cex :
    (test_proxies_batch netOnlyB ["a:1", "b:1"] 100).2 = ["b:1"] ∧
      jsonTested (save_results (test_proxies_batch netOnlyB ["a:1", "b:1"] 100).1
          (test_proxies_batch netOnlyB ["a:1", "b:1"] 100).2 2) = some 1 ∧
      (["a:1", "b:1"].take 100).length = 2 := by
  refine ⟨by decide, by decide, by decide⟩

/-- C9 amended: for a duplicate-free candidate list the total-tested
field of the json record equals the number of passing candidates (the
length of the working list), each passing proxy being counted once. -/
theorem total_tested_counts_passing (net : Net) (proxies : List String) (n : Nat)
    (hnd : proxies.Nodup) :
    jsonTested (save_results (test_proxies_batch net proxies 100).1
        (test_proxies_batch net proxies 100).2 n)
      = some (test_proxies_batch net proxies 100).2.length := by
  show some (proxiesTestedCount (test_proxies_batch net proxies 100).1)
      = some (test_proxies_batch net proxies 100).2.length
  unfold test_proxies_batch
  rw [batch_go_tested_count net _ ((List.take_sublist _ _).nodup hnd)]

/-- C9 witness: on the two-candidate dispatch with one survivor the
recorded total equals the working count. -/
theorem total_tested_counts_passing_witness :
    jsonTested (save_results (test_proxies_batch netOnlyB ["a:1", "b:1"] 100).1
        (test_proxies_batch netOnlyB ["a:1", "b:1"] 100).2 2)
      = some (test_proxies_batch netOnlyB ["a:1", "b:1"] 100).2.length :=
  total_tested_counts_passing netOnlyB ["a:1", "b:1"] 2 (by decide)
